import Mathlib

/-!
# Verification of the RDP single-client file server

A shallow embedding of `a3/src/RDP_Server.py`, a stop-and-wait reliable
datagram transport with a single-connection file-serving loop.  The server
module imports `a3/src/RDP_Protocol.py`, which provides the message codec,
the `Connection` record, the reliable-send primitive and the protocol
constants; that module is not part of the sources available here, so those
pieces are modelled from the specification (each such definition says so in
its doc comment).  Everything in `RDP_Server.py` itself is translated
directly from the Python source.

Socket I/O is modelled by an oracle environment: each call to the
reliable-send primitive consumes one entry of the environment, a list of
per-attempt responses (`none` = the per-attempt timeout elapsed, `some m` =
message `m` arrived).  The file system is modelled as a partial map from
file names (payload byte strings) to file contents.
-/

namespace RDP

/-- A network address, as Python's `(host, port)` pair. -/
abbrev Address := String × Nat

/-- Modelled from the spec: the four wire message kinds — connection
request (SYN), acknowledgment-only (ACK), application data (APP) and
termination request (FIN). -/
inductive PacketType
  | syn
  | ack
  | app
  | fin
deriving DecidableEq, Repr

/-- Modelled from the spec: a protocol message value.  `src_adr` is not
encoded on the wire; it is attached from the datagram's origin metadata on
receipt.  Payload bytes are modelled as natural numbers. -/
structure Message where
  packet_type : PacketType
  seq_no : Nat
  ack_no : Nat
  payload : List Nat
  src_adr : Address
deriving DecidableEq, Repr

/-- `Message.is_syn()` of the protocol module. -/
def Message.is_syn (m : Message) : Bool :=
  m.packet_type = PacketType.syn

/-- `Message.is_ack_only()` of the protocol module: a bare acknowledgment,
mutually exclusive with the other three kinds on the wire. -/
def Message.is_ack_only (m : Message) : Bool :=
  m.packet_type = PacketType.ack

/-- `Message.is_fin()` of the protocol module. -/
def Message.is_fin (m : Message) : Bool :=
  m.packet_type = PacketType.fin

/-- `Message.get_payload_as_text()`: the payload bytes, read as the
requested file name. -/
def Message.get_payload_as_text (m : Message) : List Nat :=
  m.payload

/-- Modelled from the spec: `DEFAULT_RETRY_THRESHOLD`, the maximum number
of transmission attempts per outstanding message.  The concrete value is
not fixed by the available sources. -/
def DEFAULT_RETRY_THRESHOLD : Nat := 3

/-- Modelled from the spec: `MAX_PAYLOAD_SIZE`, the payload byte limit.
The concrete value is not fixed by the available sources. -/
def MAX_PAYLOAD_SIZE : Nat := 1024

/-- Modelled from the spec: the encoded "ok" status code (`"200"`),
prepended to every data chunk. -/
def HTTP_OK_ENCODED : List Nat := [50, 48, 48]

/-- Modelled from the spec: the encoded "not found" status code (`"404"`). -/
def HTTP_FILE_NOT_FOUND_ENCODED : List Nat := [52, 48, 52]

/-- Modelled from the spec: `HTTP_CODE_LEN`, the fixed status-code prefix
length. -/
def HTTP_CODE_LEN : Nat := 3

/-- Modelled from the spec: the implementation-chosen base value for
`next_sequence_to_send`, advertised in the SYN reply. -/
def INITIAL_SEQ_NO : Nat := 0

/-- Modelled from the spec: the `Connection` record of the protocol
module — remote address, next sequence number to send, and the last
inbound sequence number received. -/
structure Connection where
  remote_adr : Address
  seq_no : Nat
  last_index_received : Nat
deriving DecidableEq, Repr

/-- `Connection(adr, seq_no)`: a fresh connection; `last_index_received`
is the peer's SYN sequence number, the send counter starts at the
implementation-chosen base. -/
def Connection.init (adr : Address) (seq : Nat) : Connection :=
  ⟨adr, INITIAL_SEQ_NO, seq⟩

/-- `Connection.next_expected_index()`: the next inbound sequence number
the server will accept. -/
def Connection.next_expected_index (c : Connection) : Nat :=
  c.last_index_received + 1

/-- `Connection.get_seq_and_increment()`: returns the current outbound
sequence number and the connection with the counter advanced. -/
def Connection.get_seq_and_increment (c : Connection) : Nat × Connection :=
  (c.seq_no, { c with seq_no := c.seq_no + 1 })

/-- `Connection.increment_next_expected_index()`: consume the inbound
sequence number just processed. -/
def Connection.increment_next_expected_index (c : Connection) : Connection :=
  { c with last_index_received := c.last_index_received + 1 }

/-- Placeholder source address used when the server constructs an outgoing
message; the address field is only meaningful on received datagrams. -/
def SERVER_SRC_ADR : Address := ("", 0)

/-- Modelled from the spec: `create_syn_message` of the protocol module. -/
def create_syn_message (seq ack : Nat) : Message :=
  ⟨PacketType.syn, seq, ack, [], SERVER_SRC_ADR⟩

/-- Modelled from the spec: `create_app_message` of the protocol module. -/
def create_app_message (seq ack : Nat) (data : List Nat) : Message :=
  ⟨PacketType.app, seq, ack, data, SERVER_SRC_ADR⟩

/-- Modelled from the spec: `create_fin_message` of the protocol module. -/
def create_fin_message (seq ack : Nat) : Message :=
  ⟨PacketType.fin, seq, ack, [], SERVER_SRC_ADR⟩

/-! ## File chunking (`Server._get_data_from_file`)

The Python loop reads `chunk_size` bytes at a time until `file.read`
returns an empty chunk.  `read_chunks_fuel` mirrors that loop; the fuel is
instantiated with the file length, which bounds the number of non-empty
reads.  Note that, as in Python, a `chunk_size` of `0` makes the first
read return the empty byte string, so the loop body never runs. -/

/-- One `file.read(chunk_size)` loop, fuelled.  Each constructor case
mirrors the Python loop: an empty read (file exhausted, or a zero read
size) ends the loop; otherwise the next `chunk_size` bytes are appended
and the loop repeats on the rest. -/
def read_chunks_fuel : Nat → Nat → List Nat → List (List Nat)
  | 0, _, _ => []
  | _ + 1, _, [] => []
  | _ + 1, 0, _ :: _ => []
  | fuel + 1, k + 1, b :: bs =>
      (b :: bs).take (k + 1) :: read_chunks_fuel fuel (k + 1) ((b :: bs).drop (k + 1))

/-- The read loop of `_get_data_from_file`: the file's bytes split into
`chunk_size`-byte chunks. -/
def read_chunks (chunk_size : Nat) (contents : List Nat) : List (List Nat) :=
  read_chunks_fuel contents.length chunk_size contents

/-- `Server._get_data_from_file`, over the file's byte contents: split
into chunks, substituting a single empty chunk when the loop produced
none (`if not chunks: chunks = [bytes(0)]`). -/
def get_data_from_file (contents : List Nat) (chunk_size : Nat) : List (List Nat) :=
  let chunks := read_chunks chunk_size contents
  if chunks = [] then [[]] else chunks

/-! ## The reliable-send primitive (`send_until_ack_in` of the protocol
module)

Modelled from the spec: transmit the message, wait one per-attempt timeout
for any inbound message; on silence retransmit the identical message; give
up after `DEFAULT_RETRY_THRESHOLD` attempts and report "no acknowledgment"
as a `none` result (never an exception).  The network's behaviour is an
oracle list of per-attempt outcomes. -/

/-- The retransmission loop: `run_send_attempts n rs` makes up to `n`
attempts, attempt `i` observing `rs.getD i none`.  The first arriving
message is returned as-is; `none` after the budget is exhausted. -/
def run_send_attempts : Nat → List (Option Message) → Option Message
  | 0, _ => none
  | _ + 1, [] => none
  | n + 1, r :: rest =>
      match r with
      | some m => some m
      | none => run_send_attempts n rest

/-- Modelled from the spec: `send_until_ack_in(message, sock, adr)` —
the retry loop run with the fixed retry threshold.  The message and
destination do not affect the returned response, which the oracle
supplies. -/
def send_until_ack_in (responses : List (Option Message)) : Option Message :=
  run_send_attempts DEFAULT_RETRY_THRESHOLD responses

/-! ## Server state and effects

`ServerState` is the mutable state of the `Server` object that the
dispatch path touches: the single optional `Connection` (`self.conn`).
The environment `Env` holds one oracle entry per reliable-send call.  Each
server method returns, besides its Python return value, the new state, the
list of distinct messages it handed to the reliable-send primitive, and
the unconsumed environment.  Python `assert` failures and attribute errors
on `None` are modelled as `Except.error`. -/

/-- One oracle entry per reliable-send primitive call: the per-attempt
responses that call will observe. -/
abbrev Env := List (List (Option Message))

/-- The server's dispatch-relevant mutable state: `self.conn`. -/
structure ServerState where
  conn : Option Connection
deriving DecidableEq, Repr

/-- Abnormal terminations of the dispatch path: the `assert` statements of
`RDP_Server.py` and attribute access on an absent connection. -/
inductive ServerError
  | synRequired
  | addrMismatch
  | noConnection
  | chunkTooLarge
deriving DecidableEq, Repr

/-- `Server._abandon_connection`: log and drop the connection. -/
def abandon_connection (_cause : String) : ServerState :=
  { conn := none }

/-- `Server._send_until_ack_in`: run the reliable-send primitive (consuming
one oracle entry) and abandon the connection when it reports loss.
Reading `self.conn.remote_adr` requires a connection. -/
def server_send_until_ack_in (st : ServerState) (msg : Message) (env : Env) :
    Except ServerError (Option Message × ServerState × List Message × Env) :=
  match st.conn with
  | none => Except.error ServerError.noConnection
  | some _ =>
      match send_until_ack_in (env.headD []) with
      | none =>
          Except.ok (none, abandon_connection "Maximum retries exceeded", [msg], env.tail)
      | some a => Except.ok (some a, st, [msg], env.tail)

/-- The guard of `_dispatch`'s first branch:
`self.conn and self.conn.remote_adr != message.src_adr`.  The same check
is the address-equality `assert` of `_receive_connection`. -/
def foreign_packet (st : ServerState) (msg : Message) : Bool :=
  match st.conn with
  | some c => decide (c.remote_adr ≠ msg.src_adr)
  | none => false

/-- `Server._receive_connection`: require a SYN; when a connection exists
its remote address must equal the SYN's source (the `assert` on line 106);
replace the connection wholesale with a fresh one based at the SYN's
sequence number; reply with a SYN message carrying the new base sequence
number and acknowledging the SYN; send it via the reliable-send
primitive. -/
def receive_connection (st : ServerState) (syn : Message) (env : Env) :
    Except ServerError (Option Message × ServerState × List Message × Env) :=
  if ¬ syn.is_syn then Except.error ServerError.synRequired
  else if foreign_packet st syn then Except.error ServerError.addrMismatch
  else
    let conn := Connection.init syn.src_adr syn.seq_no
    let ack_no := conn.last_index_received
    let (seq_no, conn') := conn.get_seq_and_increment
    let reply := create_syn_message seq_no ack_no
    server_send_until_ack_in { conn := some conn' } reply env

/-- `Server._send_data`: assert the payload fits, wrap it in an APP
message stamped with the current acknowledgment number and the next send
sequence number, and run the reliable-send primitive. -/
def send_data (st : ServerState) (data : List Nat) (env : Env) :
    Except ServerError (Option Message × ServerState × List Message × Env) :=
  if MAX_PAYLOAD_SIZE < data.length then Except.error ServerError.chunkTooLarge
  else
    match st.conn with
    | none => Except.error ServerError.noConnection
    | some c =>
        let ack_no := c.last_index_received
        let (seq_no, c') := c.get_seq_and_increment
        let msg := create_app_message seq_no ack_no data
        server_send_until_ack_in { conn := some c' } msg env

/-- The `for chunk in chunks` loop of `_process_get_request`: send each
chunk with the "ok" prefix, stopping (with `false`) as soon as a
reliable-send reports loss. -/
def send_chunks : ServerState → List (List Nat) → Env →
    Except ServerError (Bool × ServerState × List Message × Env)
  | st, [], env => Except.ok (true, st, [], env)
  | st, chunk :: rest, env => do
      let (ack, st', sent₁, env') ← send_data st (HTTP_OK_ENCODED ++ chunk) env
      match ack with
      | none => Except.ok (false, st', sent₁, env')
      | some _ => do
          let (done, st'', sent₂, env'') ← send_chunks st' rest env'
          Except.ok (done, st'', sent₁ ++ sent₂, env'')

/-- `Server._close_connection`: nothing to do without a connection;
otherwise send a FIN (next send sequence, current acknowledgment number)
via the reliable-send primitive and, whatever the outcome (no response,
a non-FIN response, or a FIN response), clear the connection. -/
def close_connection (st : ServerState) (env : Env) :
    Except ServerError (ServerState × List Message × Env) :=
  match st.conn with
  | none => Except.ok (st, [], env)
  | some c => do
      let (seq, c') := c.get_seq_and_increment
      let ack := c'.last_index_received
      let fin_msg := create_fin_message seq ack
      let (_fin_ack, _st', sent, env') ← server_send_until_ack_in { conn := some c' } fin_msg env
      Except.ok ({ conn := none }, sent, env')

/-- `Server._process_get_request`: requires a connection; consume the
request's sequence number; look the file up; send either the single
"not found" reply or every chunk of the file prefixed with "ok",
returning early (connection already abandoned) if any reliable-send
reports loss; finally run the termination handshake.  The file system is
the map `fs` from names to contents. -/
def process_get_request (fs : List Nat → Option (List Nat)) (st : ServerState)
    (message : Message) (env : Env) :
    Except ServerError (ServerState × List Message × Env) :=
  match st.conn with
  | none => Except.error ServerError.noConnection
  | some c =>
      let filename := message.get_payload_as_text
      let st := ServerState.mk (some c.increment_next_expected_index)
      match fs filename with
      | none => do
          let (ack, st', sent₁, env') ← send_data st HTTP_FILE_NOT_FOUND_ENCODED env
          match ack with
          | none => Except.ok (st', sent₁, env')
          | some _ => do
              let (st'', sent₂, env'') ← close_connection st' env'
              Except.ok (st'', sent₁ ++ sent₂, env'')
      | some contents => do
          let chunk_size := MAX_PAYLOAD_SIZE - HTTP_CODE_LEN
          let chunks := get_data_from_file contents chunk_size
          let (done, st', sent₁, env') ← send_chunks st chunks env
          if done then do
            let (st'', sent₂, env'') ← close_connection st' env'
            Except.ok (st'', sent₁ ++ sent₂, env'')
          else Except.ok (st', sent₁, env')

/-- `Server._dispatch`, with fuel bounding the depth of the recursive
redispatch of a piggybacked reply (the Python recursion; out of fuel the
model returns the state unchanged, which no claim relies on).  Branches in
source order: foreign source address → drop; SYN → `_receive_connection`
and redispatch the reply iff it is not acknowledgment-only; no
connection → drop; wrong sequence number → abandon the connection; APP →
`_process_get_request`; otherwise → drop. -/
def dispatch (fs : List Nat → Option (List Nat)) :
    Nat → ServerState → Message → Env →
    Except ServerError (ServerState × List Message × Env)
  | 0, st, _, env => Except.ok (st, [], env)
  | fuel + 1, st, message, env =>
      if foreign_packet st message then
        Except.ok (st, [], env)
      else if message.is_syn then
        match receive_connection st message env with
        | Except.error e => Except.error e
        | Except.ok (ack, st', sent₁, env') =>
            match ack with
            | some a =>
                if a.is_ack_only then Except.ok (st', sent₁, env')
                else
                  match dispatch fs fuel st' a env' with
                  | Except.error e => Except.error e
                  | Except.ok (st'', sent₂, env'') =>
                      Except.ok (st'', sent₁ ++ sent₂, env'')
            | none => Except.ok (st', sent₁, env')
      else
        match st.conn with
        | none => Except.ok (st, [], env)
        | some c =>
            if message.seq_no ≠ c.next_expected_index then
              Except.ok (abandon_connection "Bad sequence number", [], env)
            else if message.packet_type = PacketType.app then
              process_get_request fs st message env
            else
              Except.ok (st, [], env)

/-! ## The message codec

Modelled from the spec: a fixed-layout header — a one-byte kind tag and
two fixed-width (32-bit, big-endian) unsigned counters — followed by the
payload bytes.  Decoding fails with `MalformedMessage` on a buffer shorter
than the header or an unrecognized kind tag. -/

/-- Modelled from the spec: the header length in bytes (tag + two 32-bit
counters). -/
def HEADER_LEN : Nat := 9

/-- Modelled from the spec: the modulus at which sequence numbers wrap
(fixed-width 32-bit unsigned counters). -/
def SEQ_MODULUS : Nat := 4294967296

/-- The wire tag byte of each message kind. -/
def kind_to_tag : PacketType → Nat
  | PacketType.syn => 0
  | PacketType.ack => 1
  | PacketType.app => 2
  | PacketType.fin => 3

/-- The inverse of `kind_to_tag`; `none` on an unrecognized tag. -/
def tag_to_kind (t : Nat) : Option PacketType :=
  if t = 0 then some PacketType.syn
  else if t = 1 then some PacketType.ack
  else if t = 2 then some PacketType.app
  else if t = 3 then some PacketType.fin
  else none

/-- A 32-bit unsigned value as four big-endian bytes. -/
def encode_u32 (n : Nat) : List Nat :=
  [n / 16777216 % 256, n / 65536 % 256, n / 256 % 256, n % 256]

/-- Four big-endian bytes back to the value. -/
def decode_u32 (b3 b2 b1 b0 : Nat) : Nat :=
  b3 * 16777216 + b2 * 65536 + b1 * 256 + b0

/-- Modelled from the spec: the `MalformedMessage` error of the protocol
module, raised on a short buffer or an unknown kind tag. -/
inductive MalformedMessage
  | truncated
  | unknownKind
deriving DecidableEq, Repr

/-- Modelled from the spec: serialize a message to a datagram.  The source
address is not encoded. -/
def encode_message (m : Message) : List Nat :=
  kind_to_tag m.packet_type :: (encode_u32 m.seq_no ++ encode_u32 m.ack_no ++ m.payload)

/-- Modelled from the spec: parse a datagram, attaching the origin address
`src`.  A buffer shorter than the header or an unrecognized tag fails with
`MalformedMessage`; no partially populated message is produced. -/
def decode_message : List Nat → Address → Except MalformedMessage Message
  | t :: s3 :: s2 :: s1 :: s0 :: a3 :: a2 :: a1 :: a0 :: payload, src =>
      match tag_to_kind t with
      | some kind =>
          Except.ok ⟨kind, decode_u32 s3 s2 s1 s0, decode_u32 a3 a2 a1 a0, payload, src⟩
      | none => Except.error MalformedMessage.unknownKind
  | _, _ => Except.error MalformedMessage.truncated

/-! ## `Server.serve` and socket release

A small model of the resource behaviour of `serve`: `PyState` tracks the
`self.sock` attribute and the set of OS-level sockets not yet closed.
Each step returns `(Option PyExc, PyState)` — a raised exception, if any,
together with the state at that point, so state changes made before an
exception survive.  `try/finally` semantics: the `finally` suite runs in
every case, and an exception raised inside it replaces the pending one. -/

/-- Exceptions relevant to `serve`'s exit paths. -/
inductive PyExc
  | osError
  | interrupt
  | attributeError
deriving DecidableEq, Repr

/-- The resource state of the `Server` object: `self.sock`, and the
OS sockets created but not yet closed (by handle). -/
structure PyState where
  self_sock : Option Nat
  open_socks : List Nat
deriving DecidableEq, Repr

/-- `Server._create_and_bind_socket`: `socket.socket(...)` creates OS
socket `0`; `sock.bind` either raises `OSError` — before `self.sock` is
assigned — or succeeds, after which `self.sock = sock`. -/
def create_and_bind_socket (bind_fails : Bool) (st : PyState) : Option PyExc × PyState :=
  let h := 0
  let st := { st with open_socks := st.open_socks ++ [h] }
  if bind_fails then (some PyExc.osError, st)
  else (none, { st with self_sock := some h })

/-- `Server._serve_loop`: an unbounded loop with no normal exit; the
modelled exit path is an external interrupt propagating out of it. -/
def serve_loop (st : PyState) : Option PyExc × PyState :=
  (some PyExc.interrupt, st)

/-- `self.sock.close()`: an `AttributeError` if `self.sock` is `None`,
otherwise the OS socket is released. -/
def self_sock_close (st : PyState) : Option PyExc × PyState :=
  match st.self_sock with
  | none => (some PyExc.attributeError, st)
  | some h => (none, { st with open_socks := st.open_socks.erase h })

/-- The `finally` suite of `serve`: `self.sock.close()` then
`self.sock = None`; the assignment is skipped if `close` raised. -/
def serve_finally (st : PyState) : Option PyExc × PyState :=
  match self_sock_close st with
  | (some e, st') => (some e, st')
  | (none, st') => (none, { st' with self_sock := none })

/-- `Server.serve`: bind, then loop, inside `try/except/finally` (the bare
`except: raise` just re-raises).  An exception raised by the `finally`
suite replaces the pending one. -/
def serve (bind_fails : Bool) : Option PyExc × PyState :=
  let st0 : PyState := ⟨none, []⟩
  let (e₁, st₁) :=
    match create_and_bind_socket bind_fails st0 with
    | (some e, st) => (some e, st)
    | (none, st) => serve_loop st
  match serve_finally st₁ with
  | (some e₂, st₂) => (some e₂, st₂)
  | (none, st₂) => (e₁, st₂)

/-- `true` unless the dispatch run terminated with the address-equality
assertion failure of `_receive_connection` (line 106 of the source). -/
def addr_assert_ok : Except ServerError (ServerState × List Message × Env) → Bool
  | Except.error ServerError.addrMismatch => false
  | _ => true

theorem read_chunks_fuel_join (cs : Nat) (hcs : 0 < cs) :
    ∀ fuel c, List.length c ≤ fuel → (read_chunks_fuel fuel cs c).flatten = c := by
  intro fuel
  induction fuel with
  | zero =>
    intro c hc
    have : c = [] := List.eq_nil_of_length_eq_zero (Nat.le_zero.mp hc)
    subst this
    simp [read_chunks_fuel]
  | succ n ih =>
    intro c hc
    match c, cs, hcs with
    | [], _, _ => simp [read_chunks_fuel]
    | b :: bs, k + 1, _ =>
      have hdrop : List.length ((b :: bs).drop (k + 1)) ≤ n := by
        rw [List.length_drop]
        have : List.length (b :: bs) ≤ n + 1 := hc
        simp only [List.length_cons] at this ⊢
        omega
      simp only [read_chunks_fuel, List.flatten_cons, ih _ hdrop, List.take_append_drop]

theorem read_chunks_fuel_length_le (cs : Nat) :
    ∀ fuel c ch, ch ∈ read_chunks_fuel fuel cs c → ch.length ≤ cs := by
  intro fuel
  induction fuel with
  | zero => intro c ch h; simp [read_chunks_fuel] at h
  | succ n ih =>
    intro c ch h
    match c, cs with
    | [], _ => simp [read_chunks_fuel] at h
    | _ :: _, 0 => simp [read_chunks_fuel] at h
    | b :: bs, k + 1 =>
      simp only [read_chunks_fuel, List.mem_cons] at h
      rcases h with h | h
      · subst h
        rw [List.length_take]
        exact Nat.min_le_left _ _
      · exact ih _ _ h

theorem get_data_from_file_flatten (cs : Nat) (hcs : 0 < cs) (c : List Nat) :
    (get_data_from_file c cs).flatten = c := by
  unfold get_data_from_file
  by_cases h : read_chunks cs c = []
  · match c with
    | [] => simp [h]
    | b :: bs =>
      exfalso
      match cs, hcs with
      | k + 1, _ =>
        simp [read_chunks, read_chunks_fuel] at h
  · simp only [h, if_false]
    exact read_chunks_fuel_join cs hcs _ _ (Nat.le_refl _)

theorem get_data_from_file_chunk_le (cs : Nat) (c : List Nat) (ch : List Nat)
    (h : ch ∈ get_data_from_file c cs) : ch.length ≤ cs := by
  unfold get_data_from_file at h
  by_cases he : read_chunks cs c = []
  · simp only [he, if_true, List.mem_singleton] at h
    subst h
    exact Nat.zero_le _
  · simp only [he, if_false] at h
    exact read_chunks_fuel_length_le cs _ _ _ h

theorem get_data_from_file_ne_nil (cs : Nat) (c : List Nat) :
    get_data_from_file c cs ≠ [] := by
  unfold get_data_from_file
  by_cases he : read_chunks cs c = []
  · simp [he]
  · simp only [he, if_false]
    exact he

theorem run_send_attempts_none (n : Nat) :
    ∀ rs : List (Option Message), (∀ i, i < n → rs.getD i none = none) →
      run_send_attempts n rs = none := by
  induction n with
  | zero => intro rs _; rfl
  | succ m ih =>
    intro rs h
    match rs with
    | [] => rfl
    | r :: rest =>
      have h0 : r = none := by
        have := h 0 (Nat.succ_pos m)
        simpa using this
      subst h0
      show run_send_attempts m rest = none
      exact ih rest fun i hi => by
        have := h (i + 1) (Nat.succ_lt_succ hi)
        simpa using this

theorem tag_kind_roundtrip (k : PacketType) : tag_to_kind (kind_to_tag k) = some k := by
  cases k <;> rfl

theorem decode_encode_u32 (n : Nat) (h : n < SEQ_MODULUS) :
    decode_u32 (n / 16777216 % 256) (n / 65536 % 256) (n / 256 % 256) (n % 256) = n := by
  unfold SEQ_MODULUS at h
  unfold decode_u32
  omega

/-- C2: for every file (the zero-byte file included), splitting into
chunks of `MAX_PAYLOAD_SIZE − HTTP_CODE_LEN` bytes and concatenating the
chunks reproduces the file exactly; the empty file yields exactly the
single empty chunk, and the chunk list is never empty; and every chunk
with the status-code prefix prepended fits within `MAX_PAYLOAD_SIZE`, so
the "Data chunk too large" assertion of `_send_data` cannot fire. -/
theorem chunking_reassembles_and_fits (F : List Nat) :
    (get_data_from_file F (MAX_PAYLOAD_SIZE - HTTP_CODE_LEN)).flatten = F ∧
    get_data_from_file [] (MAX_PAYLOAD_SIZE - HTTP_CODE_LEN) = [[]] ∧
    get_data_from_file F (MAX_PAYLOAD_SIZE - HTTP_CODE_LEN) ≠ [] ∧
    ∀ ch ∈ get_data_from_file F (MAX_PAYLOAD_SIZE - HTTP_CODE_LEN),
      (HTTP_OK_ENCODED ++ ch).length ≤ MAX_PAYLOAD_SIZE := by
  refine ⟨get_data_from_file_flatten _ (by decide) F, by decide,
    get_data_from_file_ne_nil _ F, ?_⟩
  intro ch hch
  have h := get_data_from_file_chunk_le _ F ch hch
  rw [List.length_append]
  revert h
  unfold MAX_PAYLOAD_SIZE HTTP_CODE_LEN HTTP_OK_ENCODED
  intro h
  simp only [List.length_cons, List.length_nil]
  omega

theorem chunking_witness :
    (get_data_from_file [7, 7, 7] (MAX_PAYLOAD_SIZE - HTTP_CODE_LEN)).flatten = [7, 7, 7] ∧
    (HTTP_OK_ENCODED ++ [7, 7, 7]).length ≤ MAX_PAYLOAD_SIZE :=
  ⟨(chunking_reassembles_and_fits [7, 7, 7]).1,
    (chunking_reassembles_and_fits [7, 7, 7]).2.2.2 [7, 7, 7] (by decide)⟩

/-- C1: an inbound message whose source address differs from the current
connection's remote address is dropped: the dispatch run succeeds (no
exception, so the serve loop keeps serving), the state — connection
included — is untouched, nothing is transmitted, and no oracle entry is
consumed. -/
theorem foreign_address_dropped (fs : List Nat → Option (List Nat)) (fuel : Nat)
    (st : ServerState) (c : Connection) (message : Message) (env : Env)
    (hc : st.conn = some c) (hne : c.remote_adr ≠ message.src_adr) :
    dispatch fs fuel st message env = Except.ok (st, [], env) := by
  cases fuel with
  | zero => rfl
  | succ n =>
    have hfp : foreign_packet st message = true := by
      simp [foreign_packet, hc, hne]
    simp [dispatch, hfp]

theorem foreign_address_dropped_witness :
    dispatch (fun _ => none) 1
      { conn := some ⟨("10.0.0.1", 8080), 4, 9⟩ }
      ⟨PacketType.app, 10, 0, [1], ("10.0.0.2", 8080)⟩ [] =
    Except.ok ({ conn := some ⟨("10.0.0.1", 8080), 4, 9⟩ }, [], []) :=
  foreign_address_dropped (fun _ => none) 1 _ ⟨("10.0.0.1", 8080), 4, 9⟩ _ []
    rfl (by decide)

/-- C6: a message from the connected peer whose sequence number is not the
expected next-inbound value makes dispatch abandon the connection at once
(back to Idle), whatever the payload; nothing is sent and no oracle entry
is consumed. -/
theorem bad_sequence_abandons (fs : List Nat → Option (List Nat)) (fuel : Nat)
    (st : ServerState) (c : Connection) (message : Message) (env : Env)
    (hc : st.conn = some c) (hadr : c.remote_adr = message.src_adr)
    (hsyn : message.is_syn = false)
    (hseq : message.seq_no ≠ c.next_expected_index) :
    dispatch fs (fuel + 1) st message env = Except.ok ({ conn := none }, [], env) := by
  have hfp : foreign_packet st message = false := by
    simp [foreign_packet, hc, hadr]
  simp [dispatch, hfp, hsyn, hc, hseq, abandon_connection]

theorem bad_sequence_abandons_witness :
    dispatch (fun _ => none) 1
      { conn := some ⟨("10.0.0.1", 8080), 4, 9⟩ }
      ⟨PacketType.app, 99, 0, [1, 2, 3], ("10.0.0.1", 8080)⟩ [] =
    Except.ok ({ conn := none }, [], []) :=
  bad_sequence_abandons (fun _ => none) 0 _ ⟨("10.0.0.1", 8080), 4, 9⟩ _ []
    rfl rfl (by decide) (by decide)

theorem close_connection_eq (st : ServerState) (c : Connection) (env : Env)
    (hc : st.conn = some c) :
    close_connection st env =
      Except.ok ({ conn := none },
        [create_fin_message c.seq_no c.last_index_received], env.tail) := by
  simp only [close_connection, hc, Connection.get_seq_and_increment,
    server_send_until_ack_in]
  cases h : send_until_ack_in (env.headD []) <;>
    simp [h, abandon_connection, Bind.bind, Except.bind]

/-- C8: once `_close_connection` runs with a live connection, it sends the
FIN message (next send sequence, current acknowledgment number) through
the reliable-send primitive and clears the connection whatever the
outcome of the acknowledgment wait — no response, a non-FIN response, or
a FIN response. -/
theorem close_always_clears (st : ServerState) (c : Connection) (env : Env)
    (hc : st.conn = some c) :
    close_connection st env =
      Except.ok ({ conn := none },
        [create_fin_message c.seq_no c.last_index_received], env.tail) :=
  close_connection_eq st c env hc

theorem close_always_clears_witness :
    close_connection { conn := some ⟨("10.0.0.1", 8080), 4, 9⟩ }
      [[some ⟨PacketType.fin, 10, 4, [], ("10.0.0.1", 8080)⟩]] =
    Except.ok ({ conn := none }, [create_fin_message 4 9], []) :=
  close_always_clears _ ⟨("10.0.0.1", 8080), 4, 9⟩ _ rfl

/-- C4: when no response arrives on any of the `DEFAULT_RETRY_THRESHOLD`
attempts, the reliable-send primitive returns the "no acknowledgment"
value `none` (an ordinary result, not an exception), and the server-side
wrapper `_send_until_ack_in` then abandons the connection, leaving the
server Idle. -/
theorem retry_exhaustion_abandons (st : ServerState) (c : Connection)
    (message : Message) (rs : List (Option Message)) (env : Env)
    (hc : st.conn = some c)
    (hfail : ∀ i, i < DEFAULT_RETRY_THRESHOLD → rs.getD i none = none) :
    send_until_ack_in rs = none ∧
    server_send_until_ack_in st message (rs :: env) =
      Except.ok (none, { conn := none }, [message], env) := by
  have hnone : send_until_ack_in rs = none :=
    run_send_attempts_none DEFAULT_RETRY_THRESHOLD rs hfail
  refine ⟨hnone, ?_⟩
  simp [server_send_until_ack_in, hc, hnone, abandon_connection]

theorem retry_exhaustion_abandons_witness :
    send_until_ack_in [none, none, none] = none ∧
    server_send_until_ack_in { conn := some ⟨("10.0.0.1", 8080), 4, 9⟩ }
      ⟨PacketType.app, 4, 9, [1], ("", 0)⟩ [[none, none, none]] =
    Except.ok (none, { conn := none }, [⟨PacketType.app, 4, 9, [1], ("", 0)⟩], []) :=
  retry_exhaustion_abandons _ ⟨("10.0.0.1", 8080), 4, 9⟩ _ [none, none, none] []
    rfl (by decide)

/-- C9: evaluating the `serve` resource model on its two abnormal exit
paths.  On a bind failure the `finally` suite calls `close()` on the still
unset `self.sock`, so an `AttributeError` replaces the original `OSError`
and the OS socket created by `socket.socket` (handle `0`) is never
released — contradicting the claim that every exit path releases the
socket before re-raising.  On an interrupt during the loop the socket is
released and the interrupt re-raised, as claimed. -/
theorem serve_bind_failure_leaks :
    serve true = (some PyExc.attributeError, ⟨none, [0]⟩) ∧
    serve false = (some PyExc.interrupt, ⟨none, []⟩) := by
  exact ⟨rfl, rfl⟩

/-- C3: decoding the encoding of any message whose counters fit the wire
width reproduces the message exactly; decoding a buffer shorter than the
header, or one whose kind tag is unrecognized, fails with the
`MalformedMessage` condition and never yields a message value. -/
theorem codec_roundtrip_and_malformed :
    (∀ m : Message, m.seq_no < SEQ_MODULUS → m.ack_no < SEQ_MODULUS →
       decode_message (encode_message m) m.src_adr = Except.ok m) ∧
    (∀ (buf : List Nat) (src : Address), buf.length < HEADER_LEN →
       decode_message buf src = Except.error MalformedMessage.truncated) ∧
    (∀ (t : Nat) (rest : List Nat) (src : Address), HEADER_LEN ≤ (t :: rest).length →
       tag_to_kind t = none →
       decode_message (t :: rest) src = Except.error MalformedMessage.unknownKind) := by
  refine ⟨?_, ?_, ?_⟩
  · rintro ⟨k, s, a, p, src⟩ h1 h2
    simp only [encode_message, encode_u32, List.cons_append, List.nil_append]
    simp only [decode_message, tag_kind_roundtrip]
    simp only at h1 h2
    rw [decode_encode_u32 s h1, decode_encode_u32 a h2]
  · intro buf src h
    rcases buf with _ | ⟨b1, _ | ⟨b2, _ | ⟨b3, _ | ⟨b4, _ | ⟨b5, _ | ⟨b6, _ | ⟨b7, _ |
      ⟨b8, _ | ⟨b9, rest⟩⟩⟩⟩⟩⟩⟩⟩⟩ <;>
      first
        | rfl
        | (exfalso; simp only [List.length_cons, HEADER_LEN] at h; omega)
  · intro t rest src hlen hbad
    rcases rest with _ | ⟨b1, _ | ⟨b2, _ | ⟨b3, _ | ⟨b4, _ | ⟨b5, _ | ⟨b6, _ |
      ⟨b7, _ | ⟨b8, rest⟩⟩⟩⟩⟩⟩⟩⟩ <;>
      first
        | (exfalso; simp only [List.length_cons, List.length_nil, HEADER_LEN] at hlen; omega)
        | simp [decode_message, hbad]

theorem codec_witness :
    decode_message (encode_message ⟨PacketType.app, 5, 7, [1, 2], ("c", 9)⟩)
      (⟨PacketType.app, 5, 7, [1, 2], ("c", 9)⟩ : Message).src_adr =
      Except.ok ⟨PacketType.app, 5, 7, [1, 2], ("c", 9)⟩ ∧
    decode_message [0, 1, 2] ("c", 9) = Except.error MalformedMessage.truncated ∧
    decode_message [9, 0, 0, 0, 1, 0, 0, 0, 2] ("c", 9) =
      Except.error MalformedMessage.unknownKind :=
  ⟨codec_roundtrip_and_malformed.1 ⟨PacketType.app, 5, 7, [1, 2], ("c", 9)⟩
      (by decide) (by decide),
    codec_roundtrip_and_malformed.2.1 [0, 1, 2] ("c", 9) (by decide),
    codec_roundtrip_and_malformed.2.2 9 [0, 0, 0, 1, 0, 0, 0, 2] ("c", 9)
      (by decide) (by decide)⟩

theorem receive_connection_eq (st : ServerState) (syn : Message) (env : Env)
    (hsyn : syn.is_syn = true) (hfp : foreign_packet st syn = false) :
    receive_connection st syn env =
      (match send_until_ack_in (env.headD []) with
       | none =>
           Except.ok (none, { conn := none },
             [create_syn_message INITIAL_SEQ_NO syn.seq_no], env.tail)
       | some a =>
           Except.ok (some a,
             { conn := some ⟨syn.src_adr, INITIAL_SEQ_NO + 1, syn.seq_no⟩ },
             [create_syn_message INITIAL_SEQ_NO syn.seq_no], env.tail)) := by
  rw [List.headD_eq_head?]
  cases h : send_until_ack_in ((env.head?).getD []) <;>
    simp [receive_connection, hsyn, hfp, Connection.init,
      Connection.get_seq_and_increment, server_send_until_ack_in, h,
      abandon_connection, List.headD_eq_head?]

/-- C5: a SYN accepted by dispatch (no connection, or one with the same
peer) replaces the connection wholesale by a fresh one whose
`last_index_received` is the SYN's sequence number, sends a single SYN
reply (base sequence number, acknowledging the SYN) through the
reliable-send primitive, and redispatches the response to that reply
exactly when the response is not a bare acknowledgment. -/
theorem syn_creates_fresh_connection (fs : List Nat → Option (List Nat)) (fuel : Nat)
    (st : ServerState) (message : Message) (env : Env)
    (hsyn : message.is_syn = true)
    (hacc : st.conn = none ∨ ∃ c, st.conn = some c ∧ c.remote_adr = message.src_adr) :
    receive_connection st message env =
      (match send_until_ack_in (env.headD []) with
       | none =>
           Except.ok (none, { conn := none },
             [create_syn_message INITIAL_SEQ_NO message.seq_no], env.tail)
       | some a =>
           Except.ok (some a,
             { conn := some ⟨message.src_adr, INITIAL_SEQ_NO + 1, message.seq_no⟩ },
             [create_syn_message INITIAL_SEQ_NO message.seq_no], env.tail)) ∧
    dispatch fs (fuel + 1) st message env =
      (match send_until_ack_in (env.headD []) with
       | none =>
           Except.ok ({ conn := none },
             [create_syn_message INITIAL_SEQ_NO message.seq_no], env.tail)
       | some a =>
           if a.is_ack_only then
             Except.ok ({ conn := some ⟨message.src_adr, INITIAL_SEQ_NO + 1, message.seq_no⟩ },
               [create_syn_message INITIAL_SEQ_NO message.seq_no], env.tail)
           else
             match dispatch fs fuel
                 { conn := some ⟨message.src_adr, INITIAL_SEQ_NO + 1, message.seq_no⟩ }
                 a env.tail with
             | Except.error e => Except.error e
             | Except.ok (st₂, sent₂, env₂) =>
                 Except.ok (st₂, create_syn_message INITIAL_SEQ_NO message.seq_no :: sent₂,
                   env₂)) := by
  have hfp : foreign_packet st message = false := by
    rcases hacc with h | ⟨c, hc, hadr⟩ <;> simp [foreign_packet, *]
  have hrc := receive_connection_eq st message env hsyn hfp
  refine ⟨hrc, ?_⟩
  simp only [dispatch, hfp, Bool.false_eq_true, if_false, hsyn, if_true, hrc]
  cases h : send_until_ack_in (env.headD []) with
  | none => simp
  | some a =>
    simp only
    by_cases hao : a.is_ack_only
    · simp [hao]
    · simp only [hao, Bool.false_eq_true, if_false]
      cases dispatch fs fuel { conn := some ⟨message.src_adr, INITIAL_SEQ_NO + 1, message.seq_no⟩ } a env.tail with
      | error e => rfl
      | ok r => rfl

theorem syn_creates_fresh_connection_witness :
    dispatch (fun _ => none) 1 { conn := none }
      ⟨PacketType.syn, 100, 0, [], ("10.0.0.3", 5000)⟩
      [[some ⟨PacketType.ack, 0, 100, [], ("10.0.0.3", 5000)⟩]] =
    Except.ok ({ conn := some ⟨("10.0.0.3", 5000), INITIAL_SEQ_NO + 1, 100⟩ },
      [create_syn_message INITIAL_SEQ_NO 100], []) := by
  have h := (syn_creates_fresh_connection (fun _ => none) 0 { conn := none }
      ⟨PacketType.syn, 100, 0, [], ("10.0.0.3", 5000)⟩
      [[some ⟨PacketType.ack, 0, 100, [], ("10.0.0.3", 5000)⟩]] rfl (Or.inl rfl)).2
  rw [h]
  exact rfl

theorem env_getD_zero (env : Env) : env.getD 0 [] = env.headD [] := by
  cases env <;> rfl

theorem env_getD_tail (env : Env) (i : Nat) :
    env.tail.getD i [] = env.getD (i + 1) [] := by
  cases env <;> rfl

theorem env_tail_drop (env : Env) (n : Nat) :
    env.tail.drop n = env.drop (n + 1) := by
  cases env <;> simp

theorem send_chunks_abort (k : Nat) :
    ∀ (chunks : List (List Nat)) (st : ServerState) (c : Connection) (env : Env),
      st.conn = some c →
      k < chunks.length →
      (∀ ch ∈ chunks, ¬ MAX_PAYLOAD_SIZE < (HTTP_OK_ENCODED ++ ch).length) →
      (∀ i, i < k → (send_until_ack_in (env.getD i [])).isSome = true) →
      send_until_ack_in (env.getD k []) = none →
      ∃ sent, send_chunks st chunks env =
          Except.ok (false, { conn := none }, sent, env.drop (k + 1)) ∧
        sent.length = k + 1 ∧ ∀ m ∈ sent, m.packet_type = PacketType.app := by
  induction k with
  | zero =>
    intro chunks st c env hc hk hlen _ hfail
    cases chunks with
    | nil => exact absurd hk (by simp)
    | cons ch rest =>
      rw [env_getD_zero] at hfail
      have hfit := hlen ch (List.mem_cons_self _ _)
      refine ⟨[create_app_message c.seq_no c.last_index_received (HTTP_OK_ENCODED ++ ch)],
        ?_, rfl, ?_⟩
      · simp only [send_chunks, send_data, hc, if_neg hfit,
          Connection.get_seq_and_increment, server_send_until_ack_in, hfail,
          abandon_connection, Bind.bind, Except.bind]
        simp [List.drop_one]
      · intro m hm
        rw [List.mem_singleton] at hm
        subst hm
        rfl
  | succ n ih =>
    intro chunks st c env hc hk hlen hsome hfail
    cases chunks with
    | nil => exact absurd hk (by simp)
    | cons ch rest =>
      have h0 : (send_until_ack_in (env.headD [])).isSome = true := by
        rw [← env_getD_zero]
        exact hsome 0 (Nat.succ_pos n)
      obtain ⟨a, ha⟩ := Option.isSome_iff_exists.mp h0
      have hfit := hlen ch (List.mem_cons_self _ _)
      have hrest : n < rest.length := by
        simp only [List.length_cons] at hk
        omega
      obtain ⟨sent', hs, hlen', happ⟩ :=
        ih rest { conn := some { c with seq_no := c.seq_no + 1 } }
          { c with seq_no := c.seq_no + 1 } env.tail rfl hrest
          (fun ch' h' => hlen ch' (List.mem_cons_of_mem _ h'))
          (fun i hi => by
            rw [env_getD_tail]
            exact hsome (i + 1) (Nat.succ_lt_succ hi))
          (by rw [env_getD_tail]; exact hfail)
      refine ⟨create_app_message c.seq_no c.last_index_received (HTTP_OK_ENCODED ++ ch)
          :: sent', ?_, by simp [hlen'], ?_⟩
      · simp only [send_chunks, send_data, hc, if_neg hfit,
          Connection.get_seq_and_increment, server_send_until_ack_in, ha,
          Bind.bind, Except.bind]
        rw [hs, env_tail_drop]
        simp
      · intro m hm
        rcases List.mem_cons.mp hm with h | h
        · subst h; rfl
        · exact happ m h

/-- C7: during a file transfer, if the acknowledgment wait fails on chunk
`k`, `_process_get_request` stops right there: exactly the first `k + 1`
chunks were handed to the reliable-send primitive, every message sent was
an application-data chunk (no FIN — the termination handshake is never
started, and no further oracle entry is consumed), and the connection is
left abandoned. -/
theorem chunk_ack_failure_aborts (fs : List Nat → Option (List Nat))
    (st : ServerState) (c : Connection) (message : Message) (env : Env)
    (contents : List Nat) (k : Nat)
    (hc : st.conn = some c)
    (hfile : fs message.get_payload_as_text = some contents)
    (hk : k < (get_data_from_file contents (MAX_PAYLOAD_SIZE - HTTP_CODE_LEN)).length)
    (hsome : ∀ i, i < k → (send_until_ack_in (env.getD i [])).isSome = true)
    (hfail : send_until_ack_in (env.getD k []) = none) :
    ∃ sent, process_get_request fs st message env =
        Except.ok ({ conn := none }, sent, env.drop (k + 1)) ∧
      sent.length = k + 1 ∧ ∀ m ∈ sent, m.packet_type = PacketType.app := by
  have hlen : ∀ ch ∈ get_data_from_file contents (MAX_PAYLOAD_SIZE - HTTP_CODE_LEN),
      ¬ MAX_PAYLOAD_SIZE < (HTTP_OK_ENCODED ++ ch).length := by
    intro ch hch
    have h := get_data_from_file_chunk_le _ contents ch hch
    rw [List.length_append]
    revert h
    unfold MAX_PAYLOAD_SIZE HTTP_CODE_LEN HTTP_OK_ENCODED
    intro h
    simp only [List.length_cons, List.length_nil]
    omega
  obtain ⟨sent, hs, hl, happ⟩ :=
    send_chunks_abort k _ { conn := some c.increment_next_expected_index }
      c.increment_next_expected_index env rfl hk hlen hsome hfail
  refine ⟨sent, ?_, hl, happ⟩
  simp only [process_get_request, hc, hfile, Bind.bind, Except.bind]
  rw [hs]
  exact rfl

theorem chunk_ack_failure_aborts_witness :
    ∃ sent, process_get_request
        (fun name => if name = [104] then some (List.replicate 1022 7) else none)
        { conn := some ⟨("10.0.0.9", 4), 2, 101⟩ }
        ⟨PacketType.app, 102, 0, [104], ("10.0.0.9", 4)⟩
        [[none, none, none]] =
      Except.ok ({ conn := none }, sent, ([[none, none, none]] : Env).drop 1) ∧
    sent.length = 0 + 1 ∧ ∀ m ∈ sent, m.packet_type = PacketType.app :=
  chunk_ack_failure_aborts
    (fun name => if name = [104] then some (List.replicate 1022 7) else none)
    { conn := some ⟨("10.0.0.9", 4), 2, 101⟩ } ⟨("10.0.0.9", 4), 2, 101⟩
    ⟨PacketType.app, 102, 0, [104], ("10.0.0.9", 4)⟩ [[none, none, none]]
    (List.replicate 1022 7) 0 rfl rfl
    (List.length_pos.mpr (get_data_from_file_ne_nil _ _))
    (fun i hi => absurd hi (Nat.not_lt_zero i)) rfl

theorem addr_ok_of_ne (r : Except ServerError (ServerState × List Message × Env))
    (h : r ≠ Except.error ServerError.addrMismatch) : addr_assert_ok r = true := by
  cases r with
  | ok v => rfl
  | error e => cases e <;> first | rfl | exact absurd rfl h

theorem server_send_ne_addr (st : ServerState) (msg : Message) (env : Env) :
    server_send_until_ack_in st msg env ≠ Except.error ServerError.addrMismatch := by
  unfold server_send_until_ack_in
  cases st.conn with
  | none => simp
  | some c => cases send_until_ack_in (env.headD []) <;> simp

theorem send_data_ne_addr (st : ServerState) (data : List Nat) (env : Env) :
    send_data st data env ≠ Except.error ServerError.addrMismatch := by
  unfold send_data
  split
  · simp
  · cases st.conn with
    | none => simp
    | some c => exact server_send_ne_addr _ _ _

theorem send_chunks_ne_addr (chunks : List (List Nat)) :
    ∀ (st : ServerState) (env : Env),
      send_chunks st chunks env ≠ Except.error ServerError.addrMismatch := by
  induction chunks with
  | nil => intro st env; simp [send_chunks]
  | cons ch rest ih =>
    intro st env
    cases hd : send_data st (HTTP_OK_ENCODED ++ ch) env with
    | error e =>
      simp only [send_chunks, hd, Bind.bind, Except.bind]
      intro h
      cases h
      exact send_data_ne_addr _ _ _ hd
    | ok r =>
      obtain ⟨ack, st', sent₁, env'⟩ := r
      cases ack with
      | none => simp [send_chunks, hd, Bind.bind, Except.bind]
      | some a =>
        simp only [send_chunks, hd, Bind.bind, Except.bind]
        cases hs : send_chunks st' rest env' with
        | error e2 =>
          intro h
          cases h
          exact ih _ _ hs
        | ok r2 => simp

theorem close_connection_no_error (st : ServerState) (env : Env) (e : ServerError) :
    close_connection st env ≠ Except.error e := by
  cases hcn : st.conn with
  | none => simp [close_connection, hcn]
  | some c =>
    rw [close_connection_eq st c env hcn]
    simp

theorem process_ne_addr (fs : List Nat → Option (List Nat)) (st : ServerState)
    (message : Message) (env : Env) :
    process_get_request fs st message env ≠ Except.error ServerError.addrMismatch := by
  cases hcn : st.conn with
  | none => simp [process_get_request, hcn]
  | some c =>
    simp only [process_get_request, hcn]
    cases hf : fs message.get_payload_as_text with
    | none =>
      simp only [hf, Bind.bind, Except.bind]
      cases hd : send_data { conn := some c.increment_next_expected_index }
          HTTP_FILE_NOT_FOUND_ENCODED env with
      | error e2 =>
        simp only [hd]
        intro h
        injection h with h2
        subst h2
        exact send_data_ne_addr _ _ _ hd
      | ok r =>
        obtain ⟨ack, st', sent₁, env'⟩ := r
        cases ack with
        | none => simp [hd]
        | some a =>
          simp only [hd]
          cases hc2 : close_connection st' env' with
          | error e2 => exact absurd hc2 (close_connection_no_error _ _ _)
          | ok r2 => simp [hc2]
    | some contents =>
      simp only [hf, Bind.bind, Except.bind]
      cases hs : send_chunks { conn := some c.increment_next_expected_index }
          (get_data_from_file contents (MAX_PAYLOAD_SIZE - HTTP_CODE_LEN)) env with
      | error e2 =>
        simp only [hs]
        intro h
        injection h with h2
        subst h2
        exact send_chunks_ne_addr _ _ _ hs
      | ok r =>
        obtain ⟨done, st', sent₁, env'⟩ := r
        cases done with
        | false => simp [hs]
        | true =>
          simp only [hs]
          cases hc2 : close_connection st' env' with
          | error e2 => exact absurd hc2 (close_connection_no_error _ _ _)
          | ok r2 => simp [hc2]


theorem receive_connection_no_error (st : ServerState) (syn : Message) (env : Env)
    (hsyn : syn.is_syn = true) (hfp : foreign_packet st syn = false) (e : ServerError) :
    receive_connection st syn env ≠ Except.error e := by
  rw [receive_connection_eq st syn env hsyn hfp]
  cases send_until_ack_in (env.headD []) <;> simp

/-- C10: the address-equality assertion inside `_receive_connection` can
never fail on a dispatch run: the foreign-address check of `_dispatch` is
evaluated before the SYN branch, so whenever `_receive_connection` is
invoked a held connection's remote address equals the SYN's source
address.  The dispatch result is therefore never the `addrMismatch`
error, for any fuel, state, message, oracle and file system. -/
theorem dispatch_assert_safe (fs : List Nat → Option (List Nat)) (fuel : Nat)
    (st : ServerState) (message : Message) (env : Env) :
    addr_assert_ok (dispatch fs fuel st message env) = true := by
  induction fuel generalizing st message env with
  | zero => rfl
  | succ n ih =>
    by_cases hfp : foreign_packet st message = true
    · simp [dispatch, hfp, addr_assert_ok]
    · rw [Bool.not_eq_true] at hfp
      by_cases hsyn : message.is_syn = true
      · cases hrc : receive_connection st message env with
        | error e =>
          exact absurd hrc (receive_connection_no_error st message env hsyn hfp e)
        | ok r =>
          obtain ⟨ack, st', sent₁, env'⟩ := r
          cases ack with
          | none => simp [dispatch, hfp, hsyn, hrc, addr_assert_ok]
          | some a =>
            by_cases hao : a.is_ack_only = true
            · simp [dispatch, hfp, hsyn, hrc, hao, addr_assert_ok]
            · rw [Bool.not_eq_true] at hao
              have hrec := ih st' a env'
              cases hd : dispatch fs n st' a env' with
              | error e =>
                rw [hd] at hrec
                simpa [dispatch, hfp, hsyn, hrc, hao, hd] using hrec
              | ok r2 =>
                obtain ⟨st₂, sent₂, env₂⟩ := r2
                simp [dispatch, hfp, hsyn, hrc, hao, hd, addr_assert_ok]
      · rw [Bool.not_eq_true] at hsyn
        cases hcn : st.conn with
        | none => simp [dispatch, hfp, hsyn, hcn, addr_assert_ok]
        | some c =>
          by_cases hseq : message.seq_no = c.next_expected_index
          · by_cases happ : message.packet_type = PacketType.app
            · have hne := process_ne_addr fs st message env
              have heq : dispatch fs (n + 1) st message env =
                  process_get_request fs st message env := by
                simp [dispatch, hfp, hsyn, hcn, hseq, happ]
              rw [heq]
              exact addr_ok_of_ne _ hne
            · simp [dispatch, hfp, hsyn, hcn, hseq, happ, addr_assert_ok]
          · simp [dispatch, hfp, hsyn, hcn, hseq, addr_assert_ok]

end RDP
